import Mathlib

/-!
# tumblr-importr, package `http`: a shallow embedding

The package has one source file, `http/http.go`, with three functions
(`get`, `Fetch`, `Save`) and five package-level variables (`BytesDownloaded`,
`cl`, `semaphore`, `rate`, `throttle`).

The functions talk to collaborators that live outside the package: the HTTP
client (`cl.Get`), `io.Copy`, the file system (`os.MkdirAll`, `os.Create`),
`filepath.Dir`, the logger, a buffered channel and a ticker channel.  Each
collaborator's answer is an explicit input (an outcome value handed to the
call); the package-level variables and the observable effects are fields of an
explicit `World` that every function threads through.
-/

namespace TumblrImportr

/-! ## Values -/

/-- A byte of a response body. -/
abbrev Byte := Nat

/-- A Go `error` value.  `base` is an error made by a collaborator or by
`fmt.Errorf`; `wrap` is what `errors.Wrap(cause, msg)` builds. -/
inductive GoError where
  | base (msg : String)
  | wrap (cause : GoError) (msg : String)
  deriving DecidableEq, Repr

namespace GoError

/-- The method `Error()`: `errors.Wrap` prefixes its message to the cause. -/
def Error : GoError → String
  | base m => m
  | wrap c m => m ++ ": " ++ Error c

end GoError

/-- The call `errors.Wrap(err, msg)`: nil stays nil, anything else is wrapped. -/
def errorsWrap (err : Option GoError) (msg : String) : Option GoError :=
  match err with
  | none => none
  | some e => some (GoError.wrap e msg)

/-- The constant `http.StatusOK`. -/
def StatusOK : Nat := 200

/-- The 64-bit two's complement value of an integer (`int64` arithmetic). -/
def wrapInt64 (x : Int) : Int := (x + 2 ^ 63) % 2 ^ 64 - 2 ^ 63

/-- An `io.Reader` as the sequence of its answers: each element of `chunks` is
one `Read` that delivered those bytes with a nil error, and `err` is what the
reader answers once the chunks are used up (`none` is `io.EOF`). -/
structure Reader where
  chunks : List (List Byte)
  err : Option GoError
  deriving DecidableEq, Repr

/-- An `io.Writer`: the bytes it has taken so far, and how many more it takes
before a `Write` fails.  A `bytes.Buffer` has `room = none` (it never refuses);
a file may run out of `room`, and then answers `werr`. -/
structure Writer where
  data : List Byte
  room : Option Nat
  werr : GoError
  deriving DecidableEq, Repr

/-- One call `w.Write(p)`: the count written, the error, and the writer
afterwards.  A writer short of room takes what fits and reports `werr`. -/
def Writer.Write (w : Writer) (p : List Byte) : Nat × Option GoError × Writer :=
  match w.room with
  | none => (p.length, none, { w with data := w.data ++ p })
  | some k =>
    if p.length ≤ k then
      (p.length, none, { w with data := w.data ++ p, room := some (k - p.length) })
    else
      (k, some w.werr, { w with data := w.data ++ p.take k, room := some 0 })

/-- The error `io.ErrShortWrite`. -/
def ErrShortWrite : GoError := GoError.base "short write"

/-- The copy loop of `io.Copy(dst, src)`, over the reads still to come, with
`written` bytes copied so far.  It stops at the first failed or short write, or
when the reader is used up; a reader error other than EOF is the result. -/
def copyLoop (rerr : Option GoError) :
    List (List Byte) → Writer → Nat → Nat × Option GoError × Writer
  | [], dst, written => (written, rerr, dst)
  | p :: rest, dst, written =>
    if p.length > 0 then
      match dst.Write p with
      | (nw, some ew, dst1) => (written + nw, some ew, dst1)
      | (nw, none, dst1) =>
        if p.length ≠ nw then (written + nw, some ErrShortWrite, dst1)
        else copyLoop rerr rest dst1 (written + nw)
    else copyLoop rerr rest dst written

/-- The call `io.Copy(dst, src)`: bytes written, error, and `dst` afterwards. -/
def ioCopy (dst : Writer) (src : Reader) : Nat × Option GoError × Writer :=
  copyLoop src.err src.chunks dst 0

/-- What `cl.Get(url)` answers: an error, or a response with its status code,
status line and body. -/
inductive GetOutcome where
  | fail (cause : GoError)
  | resp (StatusCode : Nat) (Status : String) (Body : Reader)
  deriving DecidableEq, Repr

/-! ## The world -/

/-- The package-level variables and the observable effects of the package. -/
structure World where
  /-- The value behind the pointer `BytesDownloaded` (an `int64`). -/
  BytesDownloaded : Int
  /-- How many values sit in the channel `semaphore` (capacity 10). -/
  semaphore : Nat
  /-- How many values have been received from the channel `throttle`. -/
  admissions : Nat
  /-- The urls handed to `cl.Get`, oldest first. -/
  requests : List String
  /-- The directories `os.MkdirAll` has been asked for and made. -/
  dirs : List String
  /-- The files on disk, by path, with their contents. -/
  files : List (String × List Byte)
  /-- The lines handed to `log.Printf`. -/
  log : List String
  deriving DecidableEq, Repr

/-- Capacity of the channel `semaphore`: `make(chan bool, 10)`. -/
def semaphoreCap : Nat := 10

/-- A world in which nothing has happened yet. -/
def World.init : World :=
  { BytesDownloaded := 0, semaphore := 0, admissions := 0, requests := [],
    dirs := [], files := [], log := [] }

/-- The content of the file at `path`, if it exists. -/
def lookupFile (files : List (String × List Byte)) (path : String) : Option (List Byte) :=
  match files with
  | [] => none
  | (p, c) :: rest => if p = path then some c else lookupFile rest path

/-- The file system with the file at `path` holding `content`. -/
def setFile (files : List (String × List Byte)) (path : String) (content : List Byte) :
    List (String × List Byte) :=
  (path, content) :: files.filter (fun pc => pc.1 ≠ path)

/-! ## `get` -/

/-- What `get` hands back: its error, the sink afterwards, the world afterwards. -/
structure GetResult where
  err : Option GoError
  sink : Writer
  world : World
  deriving DecidableEq, Repr

/-- The function `get(url, w)`, with `net` the answer of `cl.Get(url)` (a
request that ran into the client's 15 second timeout is one of the failures).
The deferred `rsp.Body.Close()` has no effect on what the world records. -/
def get (net : GetOutcome) (url : String) (w : Writer) (s : World) : GetResult :=
  let s := { s with log := s.log ++ ["Getting " ++ url ++ "...\n"] }
  let s := { s with requests := s.requests ++ [url] }
  match net with
  | GetOutcome.fail cause =>
    ⟨errorsWrap (some cause) ("could not fetch " ++ url), w, s⟩
  | GetOutcome.resp StatusCode Status Body =>
    if StatusCode ≠ StatusOK then
      ⟨some (GoError.base ("bad status for " ++ url ++ ": " ++ Status)), w, s⟩
    else
      match ioCopy w Body with
      | (_, some e, w1) =>
        ⟨errorsWrap (some e) ("connection reset for " ++ url), w1, s⟩
      | (n, none, w1) =>
        ⟨none, w1, { s with BytesDownloaded := wrapInt64 (s.BytesDownloaded + n) }⟩

/-! ## Channels -/

/-- A send on the channel `semaphore` in a sequential run: it goes through when
the buffer has room, and otherwise the caller blocks for good (`none`). -/
def semSend (s : World) : Option World :=
  if s.semaphore < semaphoreCap then some { s with semaphore := s.semaphore + 1 } else none

/-- A receive from the channel `semaphore` in a sequential run: it goes through
when the buffer holds a value, and otherwise the caller blocks for good. -/
def semRecv (s : World) : Option World :=
  if 0 < s.semaphore then some { s with semaphore := s.semaphore - 1 } else none

/-- A receive from the ticker channel `throttle`.  The ticker never stops, so
the receive always goes through in the end; the world counts it. -/
def throttleRecv (s : World) : World :=
  { s with admissions := s.admissions + 1 }

/-! ## `Fetch` -/

/-- A fresh `bytes.Buffer` as a writer: empty, and it never refuses a write. -/
def newBuffer : Writer :=
  { data := [], room := none, werr := GoError.base "bytes.Buffer: too large" }

/-- What `Fetch` hands back: the reader (`none` would be a nil reader; the
content of `&buf` otherwise), the error, and the world afterwards. -/
structure FetchResult where
  reader : Option (List Byte)
  err : Option GoError
  world : World
  deriving DecidableEq, Repr

/-- The function `Fetch(url)` run on its own, with `net` the answer of
`cl.Get(url)`.  The result is `none` when the call blocks for good. -/
def Fetch (net : GetOutcome) (url : String) (s : World) : Option FetchResult :=
  match semSend s with
  | none => none
  | some s1 =>
    let buf := newBuffer
    let r := get net url buf s1
    -- the deferred function runs before the return
    match semRecv r.world with
    | none => none
    | some s2 => some ⟨some r.sink.data, r.err, s2⟩

/-- A run of `Fetch` calls one after the other; `none` when one of them blocks
for good.  The result lists each call's error, and the last world. -/
def FetchAll : List (GetOutcome × String) → World → Option (List (Option GoError) × World)
  | [], s => some ([], s)
  | (net, url) :: rest, s =>
    match Fetch net url s with
    | none => none
    | some r =>
      match FetchAll rest r.world with
      | none => none
      | some (errs, s1) => some (r.err :: errs, s1)

/-! ## `Save` -/

/-- The answers of the collaborators of one `Save` call: `filepath.Dir`, the
result of `os.MkdirAll`, the result of `os.Create`, how much the created file
takes before a write fails (and the error it then gives), and the answer of
`cl.Get`. -/
structure SaveOutcome where
  Dir : String → String
  MkdirAll : Option GoError
  Create : Option GoError
  fileRoom : Option Nat
  fileErr : GoError
  net : GetOutcome

/-- What `Save` hands back: its error and the world afterwards. -/
structure SaveResult where
  err : Option GoError
  world : World
  deriving DecidableEq, Repr

/-- The function `Save(url, fullFilePath)` run on its own.  The file on disk
holds what went through the handle `f` by the time the deferred `f.Close()`
runs. -/
def Save (o : SaveOutcome) (url fullFilePath : String) (s : World) : SaveResult :=
  let s := { s with log := s.log ++ ["Queueing " ++ url ++ " to " ++ fullFilePath] }
  -- First try to make the directory
  let dirname := o.Dir fullFilePath
  match o.MkdirAll with
  | some err => ⟨some err, s⟩
  | none =>
    let s := { s with dirs := s.dirs ++ [dirname] }
    -- Wait for throttling
    let s := throttleRecv s
    -- Open file
    match o.Create with
    | some err => ⟨some err, s⟩
    | none =>
      let s := { s with files := setFile s.files fullFilePath [] }
      let f : Writer := { data := [], room := o.fileRoom, werr := o.fileErr }
      -- Actually save the file
      let r := get o.net url f s
      ⟨r.err, { r.world with files := setFile r.world.files fullFilePath r.sink.data }⟩

/-! ## Concurrent `Fetch` calls -/

/-- Where one `Fetch` call stands: before its send on `semaphore`; inside
`get`; back from `get` with the deferred receive still to run; returned. -/
inductive Pc where
  | start
  | inGet
  | deferred
  | returned
  deriving DecidableEq, Repr

/-- A state of a system of concurrent `Fetch` calls: the number of values in
the channel `semaphore`, and where each call stands. -/
structure Sys where
  chan : Nat
  calls : List Pc
  deriving DecidableEq, Repr

/-- A call holds a slot from the end of its send to the end of its receive. -/
def Pc.holds : Pc → Bool
  | Pc.inGet => true
  | Pc.deferred => true
  | _ => false

/-- A call is in transfer while it runs `get`. -/
def Pc.transferring : Pc → Bool
  | Pc.inGet => true
  | _ => false

/-- The number of calls between their acquire and their release. -/
def Sys.holders (s : Sys) : Nat := s.calls.countP Pc.holds

/-- The number of calls running `get`. -/
def Sys.inTransfer (s : Sys) : Nat := s.calls.countP Pc.transferring

/-- The system at the start: an empty channel and `n` calls not yet begun. -/
def Sys.init (n : Nat) : Sys := { chan := 0, calls := List.replicate n Pc.start }

/-- The next step of call `i`, or `none` when the call cannot move now (it is
blocked on the channel, it has returned, or there is no such call). -/
def Sys.step (s : Sys) (i : Nat) : Option Sys :=
  match s.calls[i]? with
  | none => none
  | some Pc.start =>
    -- semaphore <- true
    if s.chan < semaphoreCap then
      some { chan := s.chan + 1, calls := s.calls.set i Pc.inGet }
    else none
  | some Pc.inGet =>
    -- get returns
    some { s with calls := s.calls.set i Pc.deferred }
  | some Pc.deferred =>
    -- <-semaphore
    if 0 < s.chan then
      some { chan := s.chan - 1, calls := s.calls.set i Pc.returned }
    else none
  | some Pc.returned => none

/-- The states the system reaches from `n` simultaneous calls, by any
interleaving of the calls' steps. -/
inductive Reachable (n : Nat) : Sys → Prop where
  | init : Reachable n (Sys.init n)
  | step (s t : Sys) (i : Nat) : Reachable n s → s.step i = some t → Reachable n t

/-- A run of the system along a schedule (the calls to move, in order); a call
that cannot move when its turn comes leaves the state as it is. -/
def Sys.run (s : Sys) : List Nat → Sys
  | [] => s
  | i :: rest =>
    match s.step i with
    | none => s.run rest
    | some t => t.run rest

/-! ## The throttle on a clock -/

/-- The interval `rate = 50 * time.Millisecond`, in milliseconds. -/
def rate : Nat := 50

/-- The channel `throttle = time.Tick(rate)` on a clock that counts whole
milliseconds since the ticker was made: the time now, whether the channel's one
slot holds a tick, how many `Save` calls are blocked in `<-throttle`, and the
times at which calls got past `<-throttle`, oldest first. -/
structure Ticker where
  now : Nat
  buffered : Bool
  waiting : Nat
  admitted : List Nat
  deriving DecidableEq, Repr

/-- The ticker when it has just been made. -/
def Ticker.init : Ticker := { now := 0, buffered := false, waiting := 0, admitted := [] }

/-- A `Save` call reaches `<-throttle`: a tick held in the slot lets it through
at once; with the slot empty the call blocks. -/
def Ticker.recv (t : Ticker) : Ticker :=
  if t.buffered then { t with buffered := false, admitted := t.admitted ++ [t.now] }
  else { t with waiting := t.waiting + 1 }

/-- The ticker's timer fires and sends without blocking: a blocked call takes
the tick and goes on; with nobody blocked the tick goes into the slot, and it
is dropped when the slot is taken. -/
def Ticker.fire (t : Ticker) : Ticker :=
  if 0 < t.waiting then { t with waiting := t.waiting - 1, admitted := t.admitted ++ [t.now] }
  else if t.buffered then t
  else { t with buffered := true }

/-- One millisecond passes; the timer fires at every multiple of `rate`. -/
def Ticker.tick (t : Ticker) : Ticker :=
  let t1 := { t with now := t.now + 1 }
  if t1.now % rate = 0 then t1.fire else t1

/-- The given number of milliseconds pass. -/
def Ticker.sleep : Nat → Ticker → Ticker
  | 0, t => t
  | n + 1, t => Ticker.sleep n t.tick

/-- What happens around the throttle: a `Save` call reaches `<-throttle`, or
time passes. -/
inductive ThrottleEvent where
  | save
  | idle (ms : Nat)
  deriving DecidableEq, Repr

/-- The ticker after a sequence of events. -/
def Ticker.run : List ThrottleEvent → Ticker → Ticker
  | [], t => t
  | ThrottleEvent.save :: rest, t => Ticker.run rest t.recv
  | ThrottleEvent.idle ms :: rest, t => Ticker.run rest (Ticker.sleep ms t)

/-- Successive admission times are at least `rate` apart. -/
def spacedByRate : List Nat → Bool
  | a :: b :: rest => decide (a + rate ≤ b) && spacedByRate (b :: rest)
  | _ => true

/-- Nobody calls `Save` for 120 ms, then three calls come at once. -/
def idleThenThree : List ThrottleEvent :=
  [ThrottleEvent.idle 120, ThrottleEvent.save, ThrottleEvent.save, ThrottleEvent.save,
   ThrottleEvent.idle 80]

/-- Three calls come as soon as the ticker is made. -/
def threeAtOnce : List ThrottleEvent :=
  [ThrottleEvent.save, ThrottleEvent.save, ThrottleEvent.save, ThrottleEvent.idle 150]

/-! ## Sequences of `get` calls -/

/-- All the bytes a reader delivers before its final answer. -/
def Reader.bytes (r : Reader) : List Byte := r.chunks.flatten

/-- A run of `get` calls one after the other, each with its own answer from
the client, url and sink; the world after the last one. -/
def getAll : List (GetOutcome × String × Writer) → World → World
  | [], s => s
  | (net, url, w) :: rest, s => getAll rest (get net url w s).world

/-- The number of bytes one `get` call put into its sink. -/
def copiedBy (net : GetOutcome) (url : String) (w : Writer) (s : World) : Nat :=
  (get net url w s).sink.data.length - w.data.length

/-- The bytes put into sinks by the calls of a run that returned a nil error. -/
def copiedByOk : List (GetOutcome × String × Writer) → World → Nat
  | [], _ => 0
  | (net, url, w) :: rest, s =>
    (if (get net url w s).err = none then copiedBy net url w s else 0)
      + copiedByOk rest (get net url w s).world

/-- The bytes put into sinks by all the calls of a run, failed ones included. -/
def copiedByAll : List (GetOutcome × String × Writer) → World → Nat
  | [], _ => 0
  | (net, url, w) :: rest, s =>
    copiedBy net url w s + copiedByAll rest (get net url w s).world

/-- The counter holds an `int64`. -/
def World.counterInRange (s : World) : Prop :=
  -(2 : Int) ^ 63 ≤ s.BytesDownloaded ∧ s.BytesDownloaded < (2 : Int) ^ 63

instance (s : World) : Decidable s.counterInRange := by
  unfold World.counterInRange; infer_instance

/-! ## Sample inputs -/

/-- A body that delivers three bytes and then fails with a read error. -/
def brokenBody : Reader :=
  { chunks := [[104, 105], [33]], err := some (GoError.base "unexpected EOF") }

/-- A body that delivers three bytes and then ends. -/
def wholeBody : Reader := { chunks := [[104, 105], [33]], err := none }

/-- A response `200 OK` whose body breaks after three bytes. -/
def brokenResponse : GetOutcome := GetOutcome.resp 200 "200 OK" brokenBody

/-- A response `200 OK` with a three-byte body. -/
def wholeResponse : GetOutcome := GetOutcome.resp 200 "200 OK" wholeBody

/-- A response `404 Not Found` with an error page as its body. -/
def notFoundResponse : GetOutcome :=
  GetOutcome.resp 404 "404 Not Found" { chunks := [[111, 111, 112, 115]], err := none }

/-- A request that never got a response. -/
def refusedRequest : GetOutcome := GetOutcome.fail (GoError.base "connection refused")

/-- Collaborators of a `Save` call with the given results of `os.MkdirAll`,
`os.Create` and `cl.Get`; the file takes any number of bytes. -/
def sampleSave (mkdir create : Option GoError) (net : GetOutcome) : SaveOutcome :=
  { Dir := fun _ => "out", MkdirAll := mkdir, Create := create, fileRoom := none,
    fileErr := GoError.base "no space left on device", net := net }

/-! ## Facts about `int64` arithmetic -/

theorem wrapInt64_of_inRange (x : Int) (h1 : -(2 : Int) ^ 63 ≤ x) (h2 : x < (2 : Int) ^ 63) :
    wrapInt64 x = x := by
  unfold wrapInt64
  omega

theorem wrapInt64_inRange (x : Int) :
    -(2 : Int) ^ 63 ≤ wrapInt64 x ∧ wrapInt64 x < (2 : Int) ^ 63 := by
  unfold wrapInt64
  omega

theorem wrapInt64_add_left (a b : Int) : wrapInt64 (wrapInt64 a + b) = wrapInt64 (a + b) := by
  unfold wrapInt64
  omega

/-! ## Facts about `Write` and `io.Copy` -/

theorem Write_spec (w : Writer) (p : List Byte) (nw : Nat) (e : Option GoError) (w1 : Writer)
    (h : w.Write p = (nw, e, w1)) :
    w1.data = w.data ++ p.take nw ∧ nw ≤ p.length ∧ (e = none → nw = p.length) := by
  unfold Writer.Write at h
  cases hr : w.room with
  | none =>
    simp only [hr, Prod.mk.injEq] at h
    obtain ⟨h1, h2, h3⟩ := h
    subst h1 h2 h3
    simp
  | some k =>
    simp only [hr] at h
    by_cases hk : p.length ≤ k
    · simp only [hk, if_true, Prod.mk.injEq] at h
      obtain ⟨h1, h2, h3⟩ := h
      subst h1 h2 h3
      simp
    · simp only [hk, if_false, Prod.mk.injEq] at h
      obtain ⟨h1, h2, h3⟩ := h
      subst h1 h2 h3
      refine ⟨rfl, by omega, by simp⟩

theorem copyLoop_spec (rerr : Option GoError) (cs : List (List Byte)) :
    ∀ (dst : Writer) (written n : Nat) (e : Option GoError) (dst1 : Writer),
      copyLoop rerr cs dst written = (n, e, dst1) →
      ∃ added : List Byte, n = written + added.length ∧ dst1.data = dst.data ++ added ∧
        added <+: cs.flatten ∧ (e = none → added = cs.flatten ∧ rerr = none) := by
  induction cs with
  | nil =>
    intro dst written n e dst1 h
    simp only [copyLoop, Prod.mk.injEq] at h
    obtain ⟨h1, h2, h3⟩ := h
    subst h1 h2 h3
    exact ⟨[], by simp, by simp, by simp, fun h => ⟨by simp, h⟩⟩
  | cons p rest ih =>
    intro dst written n e dst1 h
    unfold copyLoop at h
    by_cases hp : p.length > 0
    · simp only [hp, if_true] at h
      rcases hw : dst.Write p with ⟨nw, ew, d1⟩
      obtain ⟨hd, hle, hfull⟩ := Write_spec dst p nw ew d1 hw
      rw [hw] at h
      cases ew with
      | some ew =>
        simp only [Prod.mk.injEq] at h
        obtain ⟨h1, h2, h3⟩ := h
        subst h1 h2 h3
        refine ⟨p.take nw, ?_, hd, ?_, by simp⟩
        · simp [List.length_take, Nat.min_eq_left hle]
        · exact (List.take_prefix nw p).trans (by simp)
      | none =>
        have hnw : nw = p.length := hfull rfl
        subst hnw
        simp only [ne_eq, not_true_eq_false, if_false] at h
        obtain ⟨added, h1, h2, h3, h4⟩ := ih d1 (written + p.length) n e dst1 h
        refine ⟨p ++ added, ?_, ?_, ?_, ?_⟩
        · simp [h1]; omega
        · rw [h2, hd]; simp
        · simpa using (List.prefix_append_right_inj p).mpr h3
        · intro he
          obtain ⟨h5, h6⟩ := h4 he
          exact ⟨by simp [h5], h6⟩
    · simp only [hp, if_false] at h
      have hnil : p = [] := by
        cases p with
        | nil => rfl
        | cons a t => simp at hp
      subst hnil
      obtain ⟨added, h1, h2, h3, h4⟩ := ih dst written n e dst1 h
      exact ⟨added, h1, h2, by simpa using h3, fun he => by simpa using h4 he⟩

theorem ioCopy_spec (dst : Writer) (src : Reader) (n : Nat) (e : Option GoError) (dst1 : Writer)
    (h : ioCopy dst src = (n, e, dst1)) :
    ∃ added : List Byte, n = added.length ∧ dst1.data = dst.data ++ added ∧
      added <+: src.bytes ∧ (e = none → added = src.bytes ∧ src.err = none) := by
  obtain ⟨added, h1, h2, h3, h4⟩ := copyLoop_spec src.err src.chunks dst 0 n e dst1 h
  exact ⟨added, by omega, h2, h3, h4⟩

/-- A writer that never refuses takes every chunk: the copy ends with the
reader's own final answer. -/
theorem copyLoop_unbounded (rerr : Option GoError) (cs : List (List Byte)) :
    ∀ (dst : Writer) (written : Nat), dst.room = none →
      copyLoop rerr cs dst written
        = (written + cs.flatten.length, rerr, { dst with data := dst.data ++ cs.flatten }) := by
  induction cs with
  | nil => intro dst written _; simp [copyLoop]
  | cons p rest ih =>
    intro dst written hroom
    unfold copyLoop
    by_cases hp : p.length > 0
    · have hw : dst.Write p = (p.length, none, { dst with data := dst.data ++ p }) := by
        simp [Writer.Write, hroom]
      simp only [hp, if_true, hw, ne_eq, not_true_eq_false, if_false]
      rw [ih { dst with data := dst.data ++ p } (written + p.length) hroom]
      simp [Nat.add_assoc]
    · have hnil : p = [] := by
        cases p with
        | nil => rfl
        | cons a t => simp at hp
      subst hnil
      simp only [hp, if_false]
      rw [ih _ _ hroom]
      simp

theorem ioCopy_newBuffer (src : Reader) :
    ioCopy newBuffer src = (src.bytes.length, src.err, { newBuffer with data := src.bytes }) := by
  unfold ioCopy
  rw [copyLoop_unbounded src.err src.chunks newBuffer 0 rfl]
  simp [Reader.bytes, newBuffer]

/-! ## Facts about `get` -/

/-- Whatever happens, `get` touches only the counter, the request list and the
log: channel, throttle and file system are as before, and one request is added. -/
theorem get_frame (net : GetOutcome) (url : String) (w : Writer) (s : World) :
    (get net url w s).world.semaphore = s.semaphore ∧
    (get net url w s).world.admissions = s.admissions ∧
    (get net url w s).world.dirs = s.dirs ∧
    (get net url w s).world.files = s.files ∧
    (get net url w s).world.requests = s.requests ++ [url] := by
  unfold get
  cases net with
  | fail cause => simp
  | resp code status body =>
    by_cases hc : code = StatusOK
    · rcases hcopy : ioCopy w body with ⟨n, e, w1⟩
      cases e <;> simp [hc, hcopy]
    · simp [hc]

theorem get_transport_failure (cause : GoError) (url : String) (w : Writer) (s : World) :
    (get (GetOutcome.fail cause) url w s).err
        = some (GoError.wrap cause ("could not fetch " ++ url)) ∧
    (get (GetOutcome.fail cause) url w s).sink = w ∧
    (get (GetOutcome.fail cause) url w s).world.BytesDownloaded = s.BytesDownloaded := by
  simp [get, errorsWrap]

theorem get_bad_status (code : Nat) (status : String) (body : Reader) (url : String)
    (w : Writer) (s : World) (hc : code ≠ StatusOK) :
    (get (GetOutcome.resp code status body) url w s).err
        = some (GoError.base ("bad status for " ++ url ++ ": " ++ status)) ∧
    (get (GetOutcome.resp code status body) url w s).sink = w ∧
    (get (GetOutcome.resp code status body) url w s).world.BytesDownloaded
        = s.BytesDownloaded := by
  simp [get, hc]

theorem get_copy_ok (status : String) (body : Reader) (url : String) (w : Writer) (s : World)
    (n : Nat) (w1 : Writer) (hcopy : ioCopy w body = (n, none, w1)) :
    (get (GetOutcome.resp StatusOK status body) url w s).err = none ∧
    (get (GetOutcome.resp StatusOK status body) url w s).sink = w1 ∧
    (get (GetOutcome.resp StatusOK status body) url w s).world.BytesDownloaded
        = wrapInt64 (s.BytesDownloaded + n) := by
  simp [get, hcopy]

theorem get_copy_fault (status : String) (body : Reader) (url : String) (w : Writer)
    (s : World) (n : Nat) (e : GoError) (w1 : Writer)
    (hcopy : ioCopy w body = (n, some e, w1)) :
    (get (GetOutcome.resp StatusOK status body) url w s).err
        = some (GoError.wrap e ("connection reset for " ++ url)) ∧
    (get (GetOutcome.resp StatusOK status body) url w s).sink = w1 ∧
    (get (GetOutcome.resp StatusOK status body) url w s).world.BytesDownloaded
        = s.BytesDownloaded := by
  simp [get, hcopy, errorsWrap]

/-- The counter moves exactly when `get` returns nil, and then by the number of
bytes the call put into its sink. -/
theorem get_counter (net : GetOutcome) (url : String) (w : Writer) (s : World) :
    (get net url w s).world.BytesDownloaded
      = if (get net url w s).err = none
          then wrapInt64 (s.BytesDownloaded + copiedBy net url w s)
          else s.BytesDownloaded := by
  cases net with
  | fail cause =>
    obtain ⟨h1, _, h3⟩ := get_transport_failure cause url w s
    rw [h3, h1]; simp
  | resp code status body =>
    by_cases hc : code = StatusOK
    · subst hc
      rcases hcopy : ioCopy w body with ⟨n, e, w1⟩
      cases e with
      | none =>
        obtain ⟨h1, h2, h3⟩ := get_copy_ok status body url w s n w1 hcopy
        obtain ⟨added, ha, hd, _, _⟩ := ioCopy_spec w body n none w1 hcopy
        have hn : copiedBy (GetOutcome.resp StatusOK status body) url w s = n := by
          unfold copiedBy
          rw [h2, hd, ha]; simp
        rw [h3, h1, hn]; simp
      | some e =>
        obtain ⟨h1, _, h3⟩ := get_copy_fault status body url w s n e w1 hcopy
        rw [h3, h1]; simp
    · obtain ⟨h1, _, h3⟩ := get_bad_status code status body url w s hc
      rw [h3, h1]; simp

theorem get_counterInRange (net : GetOutcome) (url : String) (w : Writer) (s : World)
    (h : s.counterInRange) : (get net url w s).world.counterInRange := by
  unfold World.counterInRange
  rw [get_counter]
  split
  · exact wrapInt64_inRange _
  · exact h

theorem getAll_counter (calls : List (GetOutcome × String × Writer)) :
    ∀ s : World, s.counterInRange →
      (getAll calls s).BytesDownloaded
        = wrapInt64 (s.BytesDownloaded + copiedByOk calls s) := by
  induction calls with
  | nil =>
    intro s h
    simp [getAll, copiedByOk, wrapInt64_of_inRange _ h.1 h.2]
  | cons c rest ih =>
    intro s h
    obtain ⟨net, url, w⟩ := c
    simp only [getAll, copiedByOk]
    rw [ih _ (get_counterInRange net url w s h), get_counter]
    split
    · rw [wrapInt64_add_left]
      congr 1
      push_cast
      ring
    · simp

/-! ## Facts about `Fetch` -/

/-- With room in the channel, `Fetch` goes through: it runs `get` on a fresh
buffer while holding one more slot, and gives the slot back. -/
theorem Fetch_of_room (net : GetOutcome) (url : String) (s : World)
    (h : s.semaphore < semaphoreCap) :
    Fetch net url s
      = some ⟨some (get net url newBuffer { s with semaphore := s.semaphore + 1 }).sink.data,
          (get net url newBuffer { s with semaphore := s.semaphore + 1 }).err,
          { (get net url newBuffer { s with semaphore := s.semaphore + 1 }).world with
              semaphore := s.semaphore }⟩ := by
  have hf := (get_frame net url newBuffer { s with semaphore := s.semaphore + 1 }).1
  simp only at hf
  simp [Fetch, semSend, semRecv, h, hf]

/-! ## The claims about `get` -/

/-- C1, as the code has it: when the response has status 200 and the copy of
the body faults after J bytes have gone into the sink, `get` returns a non-nil
error (the cause wrapped with `connection reset for <url>`), the J bytes stay in
the sink, and the Byte Counter is left as it was.  Hence after any run of calls
the counter is its first value plus the bytes copied by the calls that returned
nil, in `int64` arithmetic; bytes of calls that failed part-way are not in it. -/
theorem get_stream_fault_leaves_counter (status url : String) (body : Reader) (w : Writer)
    (s : World) (J : Nat) (e : GoError) (w1 : Writer)
    (hcopy : ioCopy w body = (J, some e, w1)) :
    (get (GetOutcome.resp StatusOK status body) url w s).err
        = some (GoError.wrap e ("connection reset for " ++ url)) ∧
    (∃ added : List Byte, added.length = J ∧ added <+: body.bytes ∧
        (get (GetOutcome.resp StatusOK status body) url w s).sink.data = w.data ++ added) ∧
    (get (GetOutcome.resp StatusOK status body) url w s).world.BytesDownloaded
        = s.BytesDownloaded ∧
    (∀ (calls : List (GetOutcome × String × Writer)) (s0 : World), s0.counterInRange →
        (getAll calls s0).BytesDownloaded
            = wrapInt64 (s0.BytesDownloaded + copiedByOk calls s0) ∧
        (s0.BytesDownloaded + copiedByOk calls s0 < (2 : Int) ^ 63 →
          (getAll calls s0).BytesDownloaded = s0.BytesDownloaded + copiedByOk calls s0)) := by
  obtain ⟨h1, h2, h3⟩ := get_copy_fault status body url w s J e w1 hcopy
  obtain ⟨added, ha, hd, hpre, _⟩ := ioCopy_spec w body J (some e) w1 hcopy
  refine ⟨h1, ⟨added, ha.symm, hpre, by rw [h2, hd]⟩, h3, ?_⟩
  intro calls s0 hr
  refine ⟨getAll_counter calls s0 hr, fun hlt => ?_⟩
  rw [getAll_counter calls s0 hr]
  apply wrapInt64_of_inRange
  · have := hr.1
    omega
  · exact hlt

/-- C1, witness: a body that breaks after three bytes, copied into a buffer. -/
theorem get_stream_fault_leaves_counter_witness :
    ioCopy newBuffer brokenBody
        = (3, some (GoError.base "unexpected EOF"), { newBuffer with data := [104, 105, 33] }) ∧
    (get (GetOutcome.resp StatusOK "200 OK" brokenBody) "http://a/b" newBuffer
        World.init).world.BytesDownloaded = World.init.BytesDownloaded :=
  ⟨by decide,
   (get_stream_fault_leaves_counter "200 OK" "http://a/b" brokenBody newBuffer World.init 3
      (GoError.base "unexpected EOF") { newBuffer with data := [104, 105, 33] }
      (by decide)).2.2.1⟩

/-- C1 as stated fails: the response has status 200, the copy faults after
J = 3 bytes have gone into the sink, `get` returns a non-nil error, and the
Byte Counter is still 0, not 0 + 3. -/
theorem get_stream_fault_not_counted :
    (ioCopy newBuffer brokenBody).1 = 3 ∧
    (ioCopy newBuffer brokenBody).2.1 = some (GoError.base "unexpected EOF") ∧
    (get brokenResponse "http://a/b" newBuffer World.init).sink.data = [104, 105, 33] ∧
    (get brokenResponse "http://a/b" newBuffer World.init).err ≠ none ∧
    World.init.BytesDownloaded = 0 ∧
    (get brokenResponse "http://a/b" newBuffer World.init).world.BytesDownloaded = 0 ∧
    (get brokenResponse "http://a/b" newBuffer World.init).world.BytesDownloaded
        ≠ World.init.BytesDownloaded + 3 ∧
    (getAll [(brokenResponse, "http://a/b", newBuffer)] World.init).BytesDownloaded
        ≠ World.init.BytesDownloaded
            + copiedByAll [(brokenResponse, "http://a/b", newBuffer)] World.init := by
  decide

/-- C2: when the GET answers with status 200 and the K-byte body is copied into
the sink without error, `get` returns nil, the sink has received exactly the
body's bytes in order, and the Byte Counter is its earlier value plus K (as an
`int64`; the plain sum whenever that fits).  A `Fetch` of such a body returns
nil with the body as content and raises the counter by K in the same way. -/
theorem get_success_counts_body (status url : String) (body : Reader) (w : Writer) (s : World)
    (K : Nat) (hK : body.bytes.length = K) (hcopy : (ioCopy w body).2.1 = none) :
    (get (GetOutcome.resp StatusOK status body) url w s).err = none ∧
    (get (GetOutcome.resp StatusOK status body) url w s).sink.data = w.data ++ body.bytes ∧
    (get (GetOutcome.resp StatusOK status body) url w s).world.BytesDownloaded
        = wrapInt64 (s.BytesDownloaded + K) ∧
    (s.counterInRange → s.BytesDownloaded + K < (2 : Int) ^ 63 →
      (get (GetOutcome.resp StatusOK status body) url w s).world.BytesDownloaded
        = s.BytesDownloaded + K) ∧
    (s.semaphore < semaphoreCap →
      ∃ r : FetchResult, Fetch (GetOutcome.resp StatusOK status body) url s = some r ∧
        r.err = none ∧ r.reader = some body.bytes ∧
        r.world.BytesDownloaded = wrapInt64 (s.BytesDownloaded + K)) := by
  rcases hc : ioCopy w body with ⟨n, e, w1⟩
  rw [hc] at hcopy
  simp only at hcopy
  subst hcopy
  obtain ⟨added, ha, hd, _, hfull⟩ := ioCopy_spec w body n none w1 hc
  obtain ⟨hadd, heof⟩ := hfull rfl
  subst hadd
  have hn : n = K := by rw [ha, hK]
  subst hn
  obtain ⟨h1, h2, h3⟩ := get_copy_ok status body url w s _ w1 hc
  refine ⟨h1, by rw [h2, hd], h3, ?_, ?_⟩
  · intro hr hlt
    rw [h3]
    apply wrapInt64_of_inRange
    · have := hr.1
      omega
    · exact hlt
  · intro hroom
    have hb : ioCopy newBuffer body
        = (body.bytes.length, none, { newBuffer with data := body.bytes }) := by
      rw [ioCopy_newBuffer, heof]
    obtain ⟨g1, g2, g3⟩ := get_copy_ok status body url newBuffer
      { s with semaphore := s.semaphore + 1 } _ _ hb
    refine ⟨_, Fetch_of_room _ url s hroom, ?_, ?_, ?_⟩
    · exact g1
    · simp only [g2]
    · simp only [g3, hK]

/-- C2, witness: a three-byte body copied into a buffer. -/
theorem get_success_counts_body_witness :
    wholeBody.bytes.length = 3 ∧ (ioCopy newBuffer wholeBody).2.1 = none ∧
    (get (GetOutcome.resp StatusOK "200 OK" wholeBody) "http://a/b" newBuffer
        World.init).world.BytesDownloaded = wrapInt64 (World.init.BytesDownloaded + (3 : Nat)) :=
  ⟨by decide, by decide,
   (get_success_counts_body "200 OK" "http://a/b" wholeBody newBuffer World.init 3
      (by decide) (by decide)).2.2.1⟩

/-- C3: when the GET cannot be completed, or the response's status code is not
200, `get` returns a non-nil error whose text holds the url (and, for a bad
status, ends with the received status), the sink is as it was, and the Byte
Counter is unchanged. -/
theorem get_refused_writes_nothing (net : GetOutcome) (url : String) (w : Writer) (s : World)
    (h : (∃ cause, net = GetOutcome.fail cause) ∨
         (∃ code status body, net = GetOutcome.resp code status body ∧ code ≠ StatusOK)) :
    (∃ e : GoError, (get net url w s).err = some e ∧
        (∃ pre post : String, e.Error = pre ++ url ++ post) ∧
        (∀ cause, net = GetOutcome.fail cause →
            e = GoError.wrap cause ("could not fetch " ++ url)) ∧
        (∀ code status body, net = GetOutcome.resp code status body →
            e = GoError.base ("bad status for " ++ url ++ ": " ++ status) ∧
            ∃ pre : String, e.Error = pre ++ status)) ∧
    (get net url w s).sink = w ∧
    (get net url w s).world.BytesDownloaded = s.BytesDownloaded := by
  rcases h with ⟨cause, rfl⟩ | ⟨code, status, body, rfl, hc⟩
  · obtain ⟨h1, h2, h3⟩ := get_transport_failure cause url w s
    refine ⟨⟨_, h1, ⟨"could not fetch ", ": " ++ cause.Error, ?_⟩, ?_, ?_⟩, h2, h3⟩
    · simp [GoError.Error, String.append_assoc]
    · intro c hcz
      cases hcz
      rfl
    · intro c st b hcz
      cases hcz
  · obtain ⟨h1, h2, h3⟩ := get_bad_status code status body url w s hc
    refine ⟨⟨_, h1, ⟨"bad status for ", ": " ++ status, ?_⟩, ?_, ?_⟩, h2, h3⟩
    · simp [GoError.Error, String.append_assoc]
    · intro c hcz
      cases hcz
    · intro c st b hcz
      cases hcz
      exact ⟨rfl, ⟨"bad status for " ++ url ++ ": ", by simp [GoError.Error]⟩⟩

/-- C3, witness: a `404 Not Found` response. -/
theorem get_refused_writes_nothing_witness :
    (404 : Nat) ≠ StatusOK ∧
    (get notFoundResponse "http://a/b" newBuffer World.init).sink = newBuffer ∧
    (get notFoundResponse "http://a/b" newBuffer World.init).world.BytesDownloaded
        = World.init.BytesDownloaded :=
  ⟨by decide,
   (get_refused_writes_nothing notFoundResponse "http://a/b" newBuffer World.init
      (Or.inr ⟨404, "404 Not Found", _, rfl, by decide⟩)).2⟩

/-! ## The claims about `Fetch` -/

/-- A run of `Fetch` calls from a world with room in the channel: every call
returns, and the channel ends as full as it began. -/
theorem FetchAll_of_room (calls : List (GetOutcome × String)) :
    ∀ s : World, s.semaphore < semaphoreCap →
      ∃ (errs : List (Option GoError)) (s1 : World),
        FetchAll calls s = some (errs, s1) ∧ errs.length = calls.length ∧
        s1.semaphore = s.semaphore := by
  induction calls with
  | nil => intro s _; exact ⟨[], s, rfl, rfl, rfl⟩
  | cons c rest ih =>
    intro s h
    obtain ⟨net, url⟩ := c
    have hF := Fetch_of_room net url s h
    obtain ⟨errs, s1, h1, h2, h3⟩ := ih
      { (get net url newBuffer { s with semaphore := s.semaphore + 1 }).world with
          semaphore := s.semaphore } h
    refine ⟨(get net url newBuffer { s with semaphore := s.semaphore + 1 }).err :: errs, s1,
      ?_, by simp [h2], by simpa using h3⟩
    simp only [FetchAll, hF, h1]

/-- C5: whatever `get` does (success, transport failure, bad status, stream
fault), a `Fetch` call that got a slot returns, holds exactly one slot more
while `get` runs, and has given it back when it returns: the number of occupied
slots is then what it was before the call.  So any run of `Fetch` calls one
after the other, failing or not, returns from every call. -/
theorem Fetch_releases_its_slot (net : GetOutcome) (url : String) (s : World)
    (h : s.semaphore < semaphoreCap) :
    (∃ r : FetchResult, Fetch net url s = some r ∧
        (get net url newBuffer { s with semaphore := s.semaphore + 1 }).world.semaphore
            = s.semaphore + 1 ∧
        r.world.semaphore = s.semaphore) ∧
    (∀ calls : List (GetOutcome × String),
        ∃ (errs : List (Option GoError)) (s1 : World),
          FetchAll calls s = some (errs, s1) ∧ errs.length = calls.length ∧
          s1.semaphore = s.semaphore) := by
  refine ⟨⟨_, Fetch_of_room net url s h, ?_, rfl⟩, fun calls => FetchAll_of_room calls s h⟩
  exact (get_frame net url newBuffer { s with semaphore := s.semaphore + 1 }).1

/-- C5, witness: eleven failing `Fetch` calls in a row all return, each with
its error, and no slot is left occupied. -/
theorem Fetch_releases_its_slot_witness :
    World.init.semaphore < semaphoreCap ∧
    (∃ (errs : List (Option GoError)) (s1 : World),
        FetchAll (List.replicate 11 (refusedRequest, "http://a/b")) World.init
            = some (errs, s1) ∧
        errs.length = (List.replicate 11 (refusedRequest, "http://a/b")).length ∧
        s1.semaphore = World.init.semaphore) :=
  ⟨by decide,
   (Fetch_releases_its_slot refusedRequest "http://a/b" World.init (by decide)).2
      (List.replicate 11 (refusedRequest, "http://a/b"))⟩

/-- C10: a `Fetch` call that got a slot returns a non-nil reader whose content
is exactly what `get` wrote into the buffer, and exactly the error `get`
returned: nothing and the wrapped cause after a transport failure, nothing and
the bad-status error after a status other than 200, and for status 200 every
byte the body delivered (the whole body, or the part before a stream fault) with
nil or the wrapped fault. -/
theorem Fetch_returns_buffer_and_error (net : GetOutcome) (url : String) (s : World)
    (h : s.semaphore < semaphoreCap) :
    ∃ r : FetchResult, Fetch net url s = some r ∧
      r.reader ≠ none ∧
      r.reader
        = some (get net url newBuffer { s with semaphore := s.semaphore + 1 }).sink.data ∧
      r.err = (get net url newBuffer { s with semaphore := s.semaphore + 1 }).err ∧
      (∀ cause, net = GetOutcome.fail cause →
          r.reader = some [] ∧
          r.err = some (GoError.wrap cause ("could not fetch " ++ url))) ∧
      (∀ code status body, net = GetOutcome.resp code status body → code ≠ StatusOK →
          r.reader = some [] ∧
          r.err = some (GoError.base ("bad status for " ++ url ++ ": " ++ status))) ∧
      (∀ status body, net = GetOutcome.resp StatusOK status body →
          r.reader = some body.bytes ∧
          r.err = errorsWrap body.err ("connection reset for " ++ url)) := by
  refine ⟨_, Fetch_of_room net url s h, by simp, rfl, rfl, ?_, ?_, ?_⟩
  · intro cause hn
    subst hn
    obtain ⟨h1, h2, _⟩ := get_transport_failure cause url newBuffer
      { s with semaphore := s.semaphore + 1 }
    refine ⟨?_, ?_⟩
    all_goals simp only [h1, h2]
    all_goals rfl
  · intro code status body hn hc
    subst hn
    obtain ⟨h1, h2, _⟩ := get_bad_status code status body url newBuffer
      { s with semaphore := s.semaphore + 1 } hc
    refine ⟨?_, ?_⟩
    all_goals simp only [h1, h2]
    all_goals rfl
  · intro status body hn
    subst hn
    have hb := ioCopy_newBuffer body
    cases he : body.err with
    | none =>
      rw [he] at hb
      obtain ⟨h1, h2, _⟩ := get_copy_ok status body url newBuffer
        { s with semaphore := s.semaphore + 1 } _ _ hb
      refine ⟨?_, ?_⟩
      all_goals simp only [h1, h2]
      all_goals rfl
    | some e =>
      rw [he] at hb
      obtain ⟨h1, h2, _⟩ := get_copy_fault status body url newBuffer
        { s with semaphore := s.semaphore + 1 } _ e _ hb
      refine ⟨?_, ?_⟩
      all_goals simp only [h1, h2]
      all_goals rfl

/-- C10, witness: a body that breaks after three bytes; `Fetch` hands back the
three bytes and the wrapped fault. -/
theorem Fetch_returns_buffer_and_error_witness :
    World.init.semaphore < semaphoreCap ∧
    (∃ r : FetchResult, Fetch brokenResponse "http://a/b" World.init = some r ∧
      r.reader = some [104, 105, 33] ∧
      r.err = some (GoError.wrap (GoError.base "unexpected EOF")
                "connection reset for http://a/b")) :=
  ⟨by decide,
   match Fetch_returns_buffer_and_error brokenResponse "http://a/b" World.init (by decide) with
   | ⟨r, hF, _, _, _, _, _, hok⟩ => ⟨r, hF, hok "200 OK" brokenBody rfl⟩⟩

/-! ## The claims about `Save` -/

theorem lookupFile_setFile (files : List (String × List Byte)) (path : String)
    (content : List Byte) : lookupFile (setFile files path content) path = some content := by
  simp [setFile, lookupFile]

/-- C7: when making the destination directory fails, `Save` returns that very
error at once: no throttle admission is used, no file is made or cut short, no
directory is recorded, no GET goes out, and the Byte Counter is unchanged. -/
theorem Save_mkdir_failure (o : SaveOutcome) (url fullFilePath : String) (s : World)
    (e : GoError) (hdir : o.MkdirAll = some e) :
    (Save o url fullFilePath s).err = some e ∧
    (Save o url fullFilePath s).world.admissions = s.admissions ∧
    (Save o url fullFilePath s).world.files = s.files ∧
    (Save o url fullFilePath s).world.dirs = s.dirs ∧
    (Save o url fullFilePath s).world.requests = s.requests ∧
    (Save o url fullFilePath s).world.BytesDownloaded = s.BytesDownloaded := by
  simp [Save, hdir]

/-- C7, witness: `os.MkdirAll` answers `permission denied`. -/
theorem Save_mkdir_failure_witness :
    (sampleSave (some (GoError.base "permission denied")) none wholeResponse).MkdirAll
        = some (GoError.base "permission denied") ∧
    (Save (sampleSave (some (GoError.base "permission denied")) none wholeResponse)
        "http://a/b" "out/b" World.init).world.admissions = World.init.admissions :=
  ⟨rfl,
   (Save_mkdir_failure (sampleSave (some (GoError.base "permission denied")) none wholeResponse)
      "http://a/b" "out/b" World.init (GoError.base "permission denied") rfl).2.1⟩

/-- C8: when the directory is made but the destination file cannot be created,
`Save` returns the file-creation error after exactly one throttle admission; no
GET goes out, no file changes, and the Byte Counter is unchanged. -/
theorem Save_create_failure (o : SaveOutcome) (url fullFilePath : String) (s : World)
    (e : GoError) (hdir : o.MkdirAll = none) (hcreate : o.Create = some e) :
    (Save o url fullFilePath s).err = some e ∧
    (Save o url fullFilePath s).world.admissions = s.admissions + 1 ∧
    (Save o url fullFilePath s).world.requests = s.requests ∧
    (Save o url fullFilePath s).world.files = s.files ∧
    (Save o url fullFilePath s).world.BytesDownloaded = s.BytesDownloaded := by
  simp [Save, hdir, hcreate, throttleRecv]

/-- C8, witness: `os.Create` answers `is a directory`. -/
theorem Save_create_failure_witness :
    (sampleSave none (some (GoError.base "is a directory")) wholeResponse).MkdirAll = none ∧
    (sampleSave none (some (GoError.base "is a directory")) wholeResponse).Create
        = some (GoError.base "is a directory") ∧
    (Save (sampleSave none (some (GoError.base "is a directory")) wholeResponse)
        "http://a/b" "out/b" World.init).world.admissions = World.init.admissions + 1 :=
  ⟨rfl, rfl,
   (Save_create_failure (sampleSave none (some (GoError.base "is a directory")) wholeResponse)
      "http://a/b" "out/b" World.init (GoError.base "is a directory") rfl rfl).2.1⟩

/-- C9: when the response's status is not 200 (404, say) and the directory and
the file can be created, `Save` returns the bad-status error just as `get`
makes it, and the destination file exists afterwards with zero bytes: nothing of
the response body is in it. -/
theorem Save_bad_status_leaves_empty_file (o : SaveOutcome) (url fullFilePath : String)
    (s : World) (code : Nat) (status : String) (body : Reader)
    (hdir : o.MkdirAll = none) (hcreate : o.Create = none)
    (hnet : o.net = GetOutcome.resp code status body) (hcode : code ≠ StatusOK) :
    (Save o url fullFilePath s).err
        = some (GoError.base ("bad status for " ++ url ++ ": " ++ status)) ∧
    (∀ (w : Writer) (s0 : World),
        (Save o url fullFilePath s).err = (get o.net url w s0).err) ∧
    lookupFile (Save o url fullFilePath s).world.files fullFilePath = some [] ∧
    (Save o url fullFilePath s).world.BytesDownloaded = s.BytesDownloaded := by
  have hS : ∀ w s0, (get o.net url w s0).err
      = some (GoError.base ("bad status for " ++ url ++ ": " ++ status)) := by
    intro w s0
    rw [hnet]
    exact (get_bad_status code status body url w s0 hcode).1
  have hK : ∀ w s0, (get o.net url w s0).sink = w := by
    intro w s0
    rw [hnet]
    exact (get_bad_status code status body url w s0 hcode).2.1
  have hB : ∀ w s0, (get o.net url w s0).world.BytesDownloaded = s0.BytesDownloaded := by
    intro w s0
    rw [hnet]
    exact (get_bad_status code status body url w s0 hcode).2.2
  refine ⟨?_, ?_, ?_, ?_⟩
  · simp only [Save, hdir, hcreate, hS]
  · intro w s0
    simp only [Save, hdir, hcreate, hS]
  · simp only [Save, hdir, hcreate, hK, lookupFile_setFile]
  · simp only [Save, hdir, hcreate, hB, throttleRecv]

/-- C9, witness: a `404 Not Found` whose error page is four bytes long. -/
theorem Save_bad_status_leaves_empty_file_witness :
    (404 : Nat) ≠ StatusOK ∧
    lookupFile (Save (sampleSave none none notFoundResponse) "http://a/b" "out/b"
        World.init).world.files "out/b" = some [] :=
  ⟨by decide,
   (Save_bad_status_leaves_empty_file (sampleSave none none notFoundResponse) "http://a/b"
      "out/b" World.init 404 "404 Not Found" _ rfl rfl rfl (by decide)).2.2.1⟩

/-! ## The claim about concurrent `Fetch` calls -/

theorem countP_holds_set (l : List Pc) (i : Nat) (old new : Pc) (h : l[i]? = some old) :
    (l.set i new).countP Pc.holds
      = l.countP Pc.holds - (if old.holds = true then 1 else 0)
          + (if new.holds = true then 1 else 0) := by
  obtain ⟨hi, hget⟩ := List.getElem?_eq_some_iff.mp h
  rw [List.countP_set Pc.holds l i new hi, hget]

theorem inTransfer_le_holders (s : Sys) : s.inTransfer ≤ s.holders := by
  unfold Sys.inTransfer Sys.holders
  apply List.countP_mono_left
  intro pc _ h
  cases pc <;> simp_all [Pc.transferring, Pc.holds]

/-- Every value in the channel belongs to a call between its send and its
receive, and the channel is never over its capacity. -/
theorem Reachable_holders_eq_chan (n : Nat) (s : Sys) (h : Reachable n s) :
    s.holders = s.chan ∧ s.chan ≤ semaphoreCap := by
  induction h with
  | init =>
    refine ⟨?_, Nat.zero_le _⟩
    simp [Sys.holders, Sys.init, List.countP_replicate, Pc.holds]
  | step s t i _ hstep ih =>
    obtain ⟨ih1, ih2⟩ := ih
    unfold Sys.step at hstep
    cases hpc : s.calls[i]? with
    | none => simp [hpc] at hstep
    | some pc =>
      have hset := fun new => countP_holds_set s.calls i pc new hpc
      cases pc with
      | start =>
        simp only [hpc] at hstep
        by_cases hroom : s.chan < semaphoreCap
        · simp only [hroom, if_true, Option.some.injEq] at hstep
          subst hstep
          have := hset Pc.inGet
          simp only [Pc.holds] at this
          simp only [Sys.holders] at ih1 ⊢
          refine ⟨?_, ?_⟩
          · rw [this]
            simp
            omega
          · show _ ≤ semaphoreCap
            omega
        · simp [hroom] at hstep
      | inGet =>
        simp only [hpc, Option.some.injEq] at hstep
        subst hstep
        have := hset Pc.deferred
        simp only [Pc.holds] at this
        simp only [Sys.holders] at ih1 ⊢
        have hpos : 0 < s.calls.countP Pc.holds := by
          obtain ⟨hi, hget⟩ := List.getElem?_eq_some_iff.mp hpc
          exact List.countP_pos_iff.mpr ⟨Pc.inGet, hget ▸ List.getElem_mem hi, rfl⟩
        refine ⟨?_, ih2⟩
        rw [this]
        simp
        omega
      | deferred =>
        simp only [hpc] at hstep
        by_cases hpos : 0 < s.chan
        · simp only [hpos, if_true, Option.some.injEq] at hstep
          subst hstep
          have := hset Pc.returned
          simp only [Pc.holds] at this
          simp only [Sys.holders] at ih1 ⊢
          refine ⟨?_, ?_⟩
          · rw [this]
            simp
            omega
          · show _ ≤ semaphoreCap
            omega
        · simp [hpos] at hstep
      | returned => simp [hpc] at hstep

/-- Every state a schedule leads to from a reachable state is reachable. -/
theorem Reachable_run (n : Nat) (sched : List Nat) :
    ∀ s : Sys, Reachable n s → Reachable n (s.run sched) := by
  induction sched with
  | nil => intro s h; exact h
  | cons i rest ih =>
    intro s h
    unfold Sys.run
    cases hstep : s.step i with
    | none => exact ih s h
    | some t => exact ih t (Reachable.step s t i h hstep)

/-- C4: in the system of concurrent `Fetch` calls (send on the capacity-10
channel, run `get`, receive from the channel), every reachable state has at most
10 calls between their acquire and their release, so at most 10 calls run `get`
at once; and while 10 calls hold a slot, a further call that has not begun
cannot take its step into `get`: it moves only after a holder has released. -/
theorem Reachable_at_most_ten_in_transfer (n : Nat) (s : Sys) (h : Reachable n s) :
    s.holders ≤ 10 ∧ s.inTransfer ≤ 10 ∧
    (s.holders = 10 → ∀ i : Nat, s.calls[i]? = some Pc.start → s.step i = none) ∧
    (∀ (i : Nat) (t : Sys), s.calls[i]? = some Pc.start → s.step i = some t →
        s.holders < 10 ∧ t.holders = s.holders + 1) := by
  obtain ⟨h1, h2⟩ := Reachable_holders_eq_chan n s h
  have hcap : semaphoreCap = 10 := rfl
  refine ⟨by omega, ?_, ?_, ?_⟩
  · have := inTransfer_le_holders s
    omega
  · intro hfull i hi
    have hc : ¬ s.chan < semaphoreCap := by omega
    simp [Sys.step, hi, hc]
  · intro i t hi hstep
    have ht := Reachable_holders_eq_chan n t (Reachable.step s t i h hstep)
    simp only [Sys.step, hi] at hstep
    by_cases hroom : s.chan < semaphoreCap
    · simp only [hroom, if_true, Option.some.injEq] at hstep
      have hchan : t.chan = s.chan + 1 := by rw [← hstep]
      omega
    · simp [hroom] at hstep

/-- C4, witness: of eleven simultaneous calls, ten have taken a slot; the
eleventh cannot begin. -/
theorem Reachable_at_most_ten_in_transfer_witness :
    Reachable 11 ((Sys.init 11).run (List.range 10)) ∧
    ((Sys.init 11).run (List.range 10)).holders = 10 ∧
    ((Sys.init 11).run (List.range 10)).step 10 = none :=
  ⟨Reachable_run 11 (List.range 10) (Sys.init 11) Reachable.init, by decide,
   (Reachable_at_most_ten_in_transfer 11 ((Sys.init 11).run (List.range 10))
      (Reachable_run 11 (List.range 10) (Sys.init 11) Reachable.init)).2.2.1
      (by decide) 10 (by decide)⟩

/-! ## The claim about the throttle -/

set_option maxRecDepth 100000 in
/-- C6 fails on the code: the comment on `rate` says one request every 50 ms,
but a tick that fired while nobody called `Save` waits in the channel's slot.
With no call for 120 ms and then three calls at once, the first call gets past
`<-throttle` at 120 ms on the waiting tick and the second at 150 ms on the next
one, 30 ms later; so not every sequence of calls has its admissions 50 ms
apart.  Calls that are already waiting when the ticks fire are admitted at 50,
100 and 150 ms. -/
theorem throttle_admits_within_rate_after_idle :
    (Ticker.run idleThenThree Ticker.init).admitted = [120, 150, 200] ∧
    150 - 120 < rate ∧
    spacedByRate (Ticker.run idleThenThree Ticker.init).admitted = false ∧
    ¬ (∀ events : List ThrottleEvent,
        spacedByRate (Ticker.run events Ticker.init).admitted = true) ∧
    (Ticker.run threeAtOnce Ticker.init).admitted = [50, 100, 150] := by
  refine ⟨by decide, by decide, by decide, ?_, by decide⟩
  intro h
  have := h idleThenThree
  revert this
  decide

end TumblrImportr
